import Mathlib

/-!
Verification development for the AutoDocs job-orchestration pipeline and its
Next.js frontend.

The first half embeds the job orchestration and provider-fallback core.  The
backend worker code itself is not part of the checked-in sources (only the
frontend and the README are), so every definition in that half is modelled
from the specification text, as its doc comment records.  The second half
embeds, function by function, the TypeScript frontend code that is present:
the two server-side artifact resolvers, the client-side artifact viewer, the
job-list download-link computation, and the upload panel handler.
-/

namespace AutoDocs

/-- Modelled from the spec: the closed set of artifact kinds
(`readme`, `api_docs`, `uml`, `tests`, `architecture`). -/
inductive ArtifactType where
  | readme
  | api_docs
  | uml
  | tests
  | architecture
deriving DecidableEq, Repr

/-- Modelled from the spec: the fixed deterministic generation order of the
configured artifact types. -/
def artifactTypes : List ArtifactType :=
  [ArtifactType.readme, ArtifactType.api_docs, ArtifactType.uml,
   ArtifactType.tests, ArtifactType.architecture]

/-- Number of configured artifact types. -/
def numTypes : Nat := artifactTypes.length

/-- Modelled from the spec: typed single-call provider failures. -/
inductive ProviderFailure where
  | unreachable
  | rateLimited
  | invalidResponse
  | unauthorized
deriving DecidableEq, Repr

/-- Modelled from the spec: result of one `generate` call on one adapter. -/
inductive GenOutcome where
  | success (text : String)
  | failure (f : ProviderFailure)
deriving DecidableEq, Repr

/-- Modelled from the spec: the chain-level failure `AllProvidersExhausted`,
carrying the last underlying failure for diagnostics (none when the adapter
list was empty). -/
inductive ResolveErr where
  | allProvidersExhausted (last : Option ProviderFailure)
deriving DecidableEq, Repr

/-- Modelled from the spec: a network provider adapter.  An adapter is a
function from the prompt and the (zero-based) attempt index to the outcome of
that call; the attempt index lets a model adapter answer differently across
retries.  Adapters are stateless aside from configuration. -/
def Adapter : Type := String → Nat → GenOutcome

/-- Modelled from the spec: configuration consumed by the provider chain and
the orchestrator — ordered adapters, the offline-mode flag, the `RateLimited`
retry attempt ceiling and the exponential-backoff parameters. -/
structure RunConfig where
  offline : Bool
  adapters : List Adapter
  retryCeiling : Nat
  backoffBase : Nat
  backoffCap : Nat

/-- Modelled from the spec: the bounded corpus handed to the core, an ordered
sequence of (path, text) snippets. -/
def Corpus : Type := List (String × String)

/-- Modelled from the spec: bounded exponential backoff — the delay before
retry number `k + 1` is `backoffBase * 2 ^ k`, capped at `backoffCap`. -/
def backoffDelay (base cap k : Nat) : Nat := min cap (base * 2 ^ k)

/-- Modelled from the spec: retry loop for a single adapter.  `gen` is the
adapter already applied to the prompt, `fuel` is the remaining attempt budget
(initially the retry ceiling) and `used` counts attempts already made.
Returns (total attempts made, backoff waits performed between attempts,
the final outcome).  On `RateLimited` the same adapter is retried after a
bounded exponential backoff until the attempt ceiling is reached; any other
failure ends the loop at once. -/
def adapterAttempts (gen : Nat → GenOutcome) (base cap : Nat) :
    Nat → Nat → Nat × List Nat × Except ProviderFailure String
  | 0, used => (used, [], Except.error ProviderFailure.rateLimited)
  | fuel + 1, used =>
    match gen used with
    | GenOutcome.success t => (used + 1, [], Except.ok t)
    | GenOutcome.failure ProviderFailure.rateLimited =>
      if fuel = 0 then
        (used + 1, [], Except.error ProviderFailure.rateLimited)
      else
        let r := adapterAttempts gen base cap fuel (used + 1)
        (r.1, backoffDelay base cap used :: r.2.1, r.2.2)
    | GenOutcome.failure f => (used + 1, [], Except.error f)

/-- Trace of one `resolve` call over the adapter chain: how many times each
adapter was attempted (in chain order, up to the first success) and the
backoff waits performed. -/
structure ChainTrace where
  attemptsPerAdapter : List Nat
  waits : List Nat
deriving DecidableEq, Repr

/-- Modelled from the spec: fallback over the ordered adapter list.  Each
adapter gets its retry loop; on failure the chain advances carrying the last
underlying failure, and an empty remainder yields `AllProvidersExhausted`. -/
def resolveAdapters (base cap ceiling : Nat) :
    List (Nat → GenOutcome) → Option ProviderFailure →
    ChainTrace × Except ResolveErr String
  | [], last =>
    (ChainTrace.mk [] [], Except.error (ResolveErr.allProvidersExhausted last))
  | g :: gs, _ =>
    let r := adapterAttempts g base cap ceiling 0
    match r.2.2 with
    | Except.ok t => (ChainTrace.mk [r.1] r.2.1, Except.ok t)
    | Except.error f =>
      let rest := resolveAdapters base cap ceiling gs (some f)
      (ChainTrace.mk (r.1 :: rest.1.attemptsPerAdapter) (r.2.1 ++ rest.1.waits),
       rest.2)

/-- Modelled from the spec: the deterministic static adapter's type-appropriate
non-empty output, used when offline mode is enabled. -/
def offlineContent (t : ArtifactType) : String :=
  match t with
  | ArtifactType.readme => "# README\n\nStatic offline README."
  | ArtifactType.api_docs => "# API Docs\n\nStatic offline API documentation."
  | ArtifactType.uml => "# UML\n\nStatic offline UML sketch."
  | ArtifactType.tests => "# Tests\n\nStatic offline starter test notes."
  | ArtifactType.architecture => "# Architecture\n\nStatic offline overview."

/-- Modelled from the spec: `ProviderChain.resolve`.  With offline mode
enabled it skips every network adapter (empty trace, no attempts) and returns
the static adapter's output; otherwise it runs the fallback loop over the
configured adapters. -/
def resolveChain (cfg : RunConfig) (t : ArtifactType) (prompt : String) :
    ChainTrace × Except ResolveErr String :=
  if cfg.offline then
    (ChainTrace.mk [] [], Except.ok (offlineContent t))
  else
    resolveAdapters cfg.backoffBase cfg.backoffCap cfg.retryCeiling
      (cfg.adapters.map (fun a => a prompt)) none

/-- Modelled from the spec: the type-specific prompt built from the corpus
(code snippets with path context). -/
def buildPrompt (t : ArtifactType) (corpus : Corpus) : String :=
  let body := String.intercalate "\n\n"
    (corpus.map (fun pc => pc.1 ++ ":\n" ++ pc.2))
  match t with
  | ArtifactType.readme => "Write a README for:\n" ++ body
  | ArtifactType.api_docs => "Write API docs for:\n" ++ body
  | ArtifactType.uml => "Write a UML sketch for:\n" ++ body
  | ArtifactType.tests => "Write starter test cases for:\n" ++ body
  | ArtifactType.architecture => "Write an architecture overview for:\n" ++ body

/-- Modelled from the spec: one `ArtifactGenerator.produce` call routed through
the provider chain for the given artifact type. -/
def resolveType (cfg : RunConfig) (corpus : Corpus) (t : ArtifactType) :
    ChainTrace × Except ResolveErr String :=
  resolveChain cfg t (buildPrompt t corpus)

/-- Modelled from the spec: job status enum. -/
inductive Status where
  | pending
  | processing
  | completed
  | failed
deriving DecidableEq, Repr

/-- Modelled from the spec: one generated artifact row.  `placeholder` records
whether the content is the placeholder produced after a provider failure (the
store can list placeholders for the administrative reprocess operation). -/
structure Artifact where
  atype : ArtifactType
  content : String
  placeholder : Bool
  createdAt : Nat
deriving DecidableEq, Repr

/-- Modelled from the spec: the durable job record.  The accumulated error
message field is represented as the list of notes appended to it, in order
(empty list = no error message recorded). -/
structure Job where
  status : Status
  progress : Nat
  errorNotes : List String
  artifacts : List Artifact
deriving DecidableEq, Repr

/-- Modelled from the spec: `upsertArtifact` — at most one artifact per
(job, type); writing a type that already exists replaces the prior row,
otherwise the row is appended. -/
def upsertArtifact (arts : List Artifact) (a : Artifact) : List Artifact :=
  if arts.any (fun b => decide (b.atype = a.atype)) then
    arts.map (fun b => if b.atype = a.atype then a else b)
  else
    arts ++ [a]

/-- Modelled from the spec: the name of an artifact type as used in notes. -/
def typeName (t : ArtifactType) : String :=
  match t with
  | ArtifactType.readme => "readme"
  | ArtifactType.api_docs => "api_docs"
  | ArtifactType.uml => "uml"
  | ArtifactType.tests => "tests"
  | ArtifactType.architecture => "architecture"

/-- Modelled from the spec: the explanatory note appended to the job's error
message when one artifact type's generation exhausts all providers. -/
def failureNote (t : ArtifactType) (e : ResolveErr) : String :=
  match e with
  | ResolveErr.allProvidersExhausted _ =>
    "artifact generation exhausted all providers for type " ++ typeName t

/-- Modelled from the spec: the placeholder artifact recorded for an artifact
type whose generation failed with `AllProvidersExhausted` — minimal content
plus an explanatory note. -/
def placeholderArtifact (t : ArtifactType) (e : ResolveErr) : Artifact :=
  Artifact.mk t ("# Placeholder\n\n" ++ failureNote t e) true 0

/-- The artifact that one generator run records for type `t`: the generated
content on success, the placeholder on `AllProvidersExhausted`. -/
def artifactFor (cfg : RunConfig) (corpus : Corpus) (t : ArtifactType) :
    Artifact :=
  match (resolveType cfg corpus t).2 with
  | Except.ok c => Artifact.mk t c false 0
  | Except.error e => placeholderArtifact t e

/-- The error note (if any) that one generator run appends for type `t`. -/
def noteFor (cfg : RunConfig) (corpus : Corpus) (t : ArtifactType) :
    Option String :=
  match (resolveType cfg corpus t).2 with
  | Except.ok _ => none
  | Except.error e => some (failureNote t e)

/-- Modelled from the spec: one iteration of the orchestrator's per-artifact
loop for the type at position `i`.  On success the artifact is upserted; on
`AllProvidersExhausted` a placeholder artifact is upserted and the failure
note is appended to the accumulated error message.  Progress then advances to
`100 * (i + 1) / numTypes` (so the final type lands exactly at 100) and the
job is finalized to `completed` together with the last progress write.
Also returns the number of network adapter calls this step performed. -/
def runArtifact (cfg : RunConfig) (corpus : Corpus) (i : Nat)
    (t : ArtifactType) (job : Job) : Job × Nat :=
  let res := resolveType cfg corpus t
  let job' : Job :=
    match res.2 with
    | Except.ok c =>
      { job with artifacts := upsertArtifact job.artifacts (Artifact.mk t c false 0) }
    | Except.error e =>
      { job with
          artifacts := upsertArtifact job.artifacts (placeholderArtifact t e),
          errorNotes := job.errorNotes ++ [failureNote t e] }
  ({ job' with
      progress := 100 * (i + 1) / numTypes,
      status := if i + 1 = numTypes then Status.completed else job.status },
   res.1.attemptsPerAdapter.sum)

/-- Modelled from the spec: the orchestrator's per-artifact loop over the
remaining types, starting at position `i`.  Returns the final job state and
the total number of network adapter calls. -/
def runLoop (cfg : RunConfig) (corpus : Corpus) :
    List ArtifactType → Nat → Job → Job × Nat
  | [], _, job => (job, 0)
  | t :: ts, i, job =>
    let step := runArtifact cfg corpus i t job
    let rest := runLoop cfg corpus ts (i + 1) step.1
    (rest.1, step.2 + rest.2)

/-- The sequence of persisted job states written by the per-artifact loop,
one state after each artifact type is attempted. -/
def runLoopStates (cfg : RunConfig) (corpus : Corpus) :
    List ArtifactType → Nat → Job → List Job
  | [], _, _ => []
  | t :: ts, i, job =>
    let j := (runArtifact cfg corpus i t job).1
    j :: runLoopStates cfg corpus ts (i + 1) j

/-- Modelled from the spec: the job as created at enqueue time. -/
def initialJob : Job := Job.mk Status.pending 0 [] []

/-- Modelled from the spec: the job right after the atomic claim on dequeue. -/
def claimedJob : Job := Job.mk Status.processing 0 [] []

/-- Modelled from the spec: the full pipeline run for one dequeued job.
The input is the corpus-load result; `CorpusUnreadable` (the error case,
carrying its description) is fatal and drives the job to `failed` with the
message recorded verbatim and progress frozen; otherwise the per-artifact
loop runs over every configured type.  Returns the final job state and the
total number of network adapter calls. -/
def processJob (cfg : RunConfig) (cr : Except String Corpus) : Job × Nat :=
  match cr with
  | Except.error m =>
    ({ claimedJob with status := Status.failed, errorNotes := [m] }, 0)
  | Except.ok corpus => runLoop cfg corpus artifactTypes 0 claimedJob

/-- Modelled from the spec: the job states persisted over one job's lifetime —
enqueue, claim, then either the fatal corpus failure or one state per
artifact type attempted (the last of which is the `completed` final state). -/
def jobTrace (cfg : RunConfig) (cr : Except String Corpus) : List Job :=
  match cr with
  | Except.error m =>
    [initialJob, claimedJob,
     { claimedJob with status := Status.failed, errorNotes := [m] }]
  | Except.ok corpus =>
    initialJob :: claimedJob :: runLoopStates cfg corpus artifactTypes 0 claimedJob

/-- Modelled from the spec: `regenerate(job_id, artifact_type)` — loads the
corpus, runs the single generator, and on success replaces the existing
artifact row (content and timestamp) via upsert, leaving job status and
progress untouched; on any failure the job is left unchanged. -/
def regenerate (cfg : RunConfig) (cr : Except String Corpus) (job : Job)
    (t : ArtifactType) (now : Nat) : Job :=
  match cr with
  | Except.error _ => job
  | Except.ok corpus =>
    match (resolveType cfg corpus t).2 with
    | Except.ok c =>
      { job with artifacts := upsertArtifact job.artifacts (Artifact.mk t c false now) }
    | Except.error _ => job

/-! Frontend embedding, from `src/frontend`.  JavaScript strings are `String`,
`null`/`undefined` string fields are `Option String`, and JS truthiness on a
string is non-emptiness. -/

/-- From `src/frontend/types/job.ts`: the `Artifact` response shape.  `path`
and `content` are optional/nullable; `title` is kept optional as the resolver
code guards it with `||`. -/
structure FArtifact where
  id : String
  atype : String
  title : Option String
  path : Option String
  content : Option String
  created_at : String
deriving DecidableEq, Repr

/-- From `src/frontend/types/job.ts`: the fields of `Job` the artifact
resolvers and the job list read. -/
structure FJob where
  id : String
  artifacts : List FArtifact
deriving DecidableEq, Repr

/-- JS `s.endsWith(post)` on strings, as character-list suffix. -/
def jsEndsWith (s post : String) : Bool :=
  List.isSuffixOf post.data s.data

/-- JS `o || fallback` for a nullable string: the fallback replaces both
`null`/`undefined` and the empty string. -/
def jsOr (o : Option String) (fallback : String) : String :=
  match o with
  | none => fallback
  | some s => if s = "" then fallback else s

/-- JS `arr.join('/')`. -/
def joinSlash : List String → String
  | [] => ""
  | [s] => s
  | s :: rest => s ++ "/" ++ joinSlash rest

/-- JS `path.split('/').pop()`: the segment after the last `'/'` (the whole
string when it has no `'/'`). -/
def jsLastSegment (s : String) : String :=
  String.mk (s.data.foldl (fun acc c => if c = '/' then [] else acc ++ [c]) [])

/-- The artifact-matching predicate shared verbatim by all three viewer
lookups: `a.path && a.path.endsWith('/' + filename)`. -/
def matchesFile (filename : String) (a : FArtifact) : Bool :=
  match a.path with
  | none => false
  | some p => decide (p ≠ "") && jsEndsWith p ("/" ++ filename)

/-- Outcome of a Next.js `getServerSideProps` artifact resolver. -/
inductive SSRResult where
  | notFound
  | props (title content : String)
deriving DecidableEq, Repr

/-- From `src/frontend/pages/artifact/[...slug].tsx` (`getServerSideProps`):
reject slugs shorter than 2, take `jobId = slug[0]` and
`filename = slug.slice(1).join('/')`, find the job by id in the fetched list,
find the artifact by the path-suffix match, and return
`(art.title || filename, art.content || '')`.  The fetched job list is the
`items` argument; a failed fetch returns not-found in the source and is the
`none` job-list case of the caller, not modelled here. -/
def slugResolver (items : List FJob) (slug : List String) : SSRResult :=
  if slug.length < 2 then SSRResult.notFound
  else
    let jobId := slug.headD ""
    let filename := joinSlash (slug.drop 1)
    match items.find? (fun j => decide (j.id = jobId)) with
    | none => SSRResult.notFound
    | some job =>
      match job.artifacts.find? (matchesFile filename) with
      | none => SSRResult.notFound
      | some art =>
        SSRResult.props (jsOr art.title filename) ((art.content).getD "")

/-- From `src/frontend/pages/artifact-view.tsx` (`getServerSideProps`):
reject falsy `jobId`/`filename` query parameters, then the same job and
artifact lookup and the same props as the catch-all page. -/
def queryResolver (items : List FJob) (jobId filename : Option String) :
    SSRResult :=
  match jobId, filename with
  | some jid, some fname =>
    if jid = "" ∨ fname = "" then SSRResult.notFound
    else
      match items.find? (fun j => decide (j.id = jid)) with
      | none => SSRResult.notFound
      | some job =>
        match job.artifacts.find? (matchesFile fname) with
        | none => SSRResult.notFound
        | some art =>
          SSRResult.props (jsOr art.title fname) ((art.content).getD "")
  | _, _ => SSRResult.notFound

/-- From `src/frontend/pages/artifact/[jobId]/[filename].tsx`: the client-side
fetch effect.  `none` means the effect returned early (falsy route params) and
the page stays on Loading; otherwise the resulting (title, content) pair —
`'# Not found\nJob not found'`, `'# Not found\nArtifact not found'`, or the
artifact's `(title || filename, content || '# Empty')`. -/
def clientResolve (items : List FJob) (jobId filename : String) :
    Option (String × String) :=
  let title0 := if filename = "" then "Artifact" else filename
  if jobId = "" ∨ filename = "" then none
  else
    match items.find? (fun j => decide (j.id = jobId)) with
    | none => some (title0, "# Not found\nJob not found")
    | some job =>
      match job.artifacts.find? (matchesFile filename) with
      | none => some (title0, "# Not found\nArtifact not found")
      | some art =>
        some (jsOr art.title filename, jsOr art.content "# Empty")

/-- From `src/frontend/components/JobList.tsx`: the filename used in an
artifact's download link —
`artifact.path ? artifact.path.split('/').pop() : type + '.md'`. -/
def jobListFilename (a : FArtifact) : String :=
  match a.path with
  | none => a.atype ++ ".md"
  | some p => if p = "" then a.atype ++ ".md" else jsLastSegment p

/-- From `src/frontend/components/UploadPanel.tsx`: the observable effects of
one `handleUpload` call, in order — the `onError`/`onUploaded` callbacks, the
upload request, and the `setFile`/`setIsUploading` state updates. -/
inductive PanelEff where
  | effError (msg : String)
  | effRequest (file : String)
  | effUploaded (jobId : String)
  | effSetFile (v : Option String)
  | effSetUploading (b : Bool)
deriving DecidableEq, Repr

/-- From `src/frontend/components/UploadPanel.tsx` (`handleUpload`): with no
file selected, call `onError` and return; otherwise set the uploading flag,
issue the upload request, on success call `onUploaded` and clear the file, on
rejection call `onError`, and in all cases finally clear the uploading flag.
`outcome` is the result of the awaited `uploadJob` request (the job id on
success). -/
def handleUpload (file : Option String) (outcome : Except String String) :
    List PanelEff :=
  match file with
  | none => [PanelEff.effError "Pick a file first. Zip works best for full repos."]
  | some f =>
    PanelEff.effSetUploading true :: PanelEff.effRequest f ::
      ((match outcome with
        | Except.ok j => [PanelEff.effUploaded j, PanelEff.effSetFile none]
        | Except.error _ => [PanelEff.effError "Upload failed. Is the backend running?"])
       ++ [PanelEff.effSetUploading false])

/-- The component state `handleUpload` mutates: the selected file and the
uploading flag. -/
structure PanelState where
  file : Option String
  uploading : Bool
deriving DecidableEq, Repr

/-- Apply one effect to the panel state (callbacks and the request do not
change the component's own state). -/
def applyEff (s : PanelState) : PanelEff → PanelState
  | PanelEff.effSetFile v => PanelState.mk v s.uploading
  | PanelEff.effSetUploading b => PanelState.mk s.file b
  | _ => s

/-- Run an effect list over a panel state. -/
def runPanel (s : PanelState) (effs : List PanelEff) : PanelState :=
  effs.foldl applyEff s

/-! Concrete instances used to witness the theorems below. -/

/-- Offline-mode configuration with no network adapters. -/
def cfgOff : RunConfig := RunConfig.mk true [] 3 1 4

/-- Online configuration whose single adapter always answers `Unauthorized`. -/
def cfgFail : RunConfig :=
  RunConfig.mk false [fun _ _ => GenOutcome.failure ProviderFailure.unauthorized] 3 1 4

/-- Online configuration whose single adapter always answers `RateLimited`,
with retry ceiling 3. -/
def cfgRL : RunConfig :=
  RunConfig.mk false [fun _ _ => GenOutcome.failure ProviderFailure.rateLimited] 3 1 4

/-- A one-snippet corpus. -/
def corpus0 : Corpus := [("main.py", "print(1)")]

/-- An artifact whose storage path ends with a directory separator. -/
def artC8 : FArtifact :=
  FArtifact.mk "a1" "readme" (some "T") (some "docs/") (some "C") "now"

/-- A one-job list containing `artC8`. -/
def jsC8 : List FJob := [FJob.mk "j" [artC8]]

/-- An artifact whose path is the bare filename `notes.md` (no `'/'`). -/
def aBare : FArtifact :=
  FArtifact.mk "a1" "readme" (some "T") (some "notes.md") (some "C") "now"

/-- A one-job list containing `aBare`. -/
def jsBare : List FJob := [FJob.mk "j" [aBare]]

/-- A job holding one previously generated (non-placeholder) readme. -/
def jobReadme : Job :=
  Job.mk Status.completed 100 [] [Artifact.mk ArtifactType.readme "old" false 0]

/-! Helper lemmas about the orchestrator loop. -/

/-- One loop iteration upserts exactly the artifact `artifactFor` describes. -/
theorem runArtifact_artifacts (cfg : RunConfig) (corpus : Corpus) (i : Nat)
    (t : ArtifactType) (job : Job) :
    ((runArtifact cfg corpus i t job).1).artifacts =
      upsertArtifact job.artifacts (artifactFor cfg corpus t) := by
  cases h : (resolveType cfg corpus t).2 <;>
    simp [runArtifact, artifactFor, h]

/-- One loop iteration appends exactly the note `noteFor` describes. -/
theorem runArtifact_errorNotes (cfg : RunConfig) (corpus : Corpus) (i : Nat)
    (t : ArtifactType) (job : Job) :
    ((runArtifact cfg corpus i t job).1).errorNotes =
      job.errorNotes ++ (noteFor cfg corpus t).toList := by
  cases h : (resolveType cfg corpus t).2 <;>
    simp [runArtifact, noteFor, h]

/-- The artifact recorded for type `t` has type `t`. -/
theorem artifactFor_atype (cfg : RunConfig) (corpus : Corpus)
    (t : ArtifactType) : (artifactFor cfg corpus t).atype = t := by
  cases h : (resolveType cfg corpus t).2 <;>
    simp [artifactFor, h, placeholderArtifact]

/-- Upserting a type not yet present appends the artifact. -/
theorem upsert_fresh (arts : List Artifact) (a : Artifact)
    (h : ∀ b ∈ arts, b.atype ≠ a.atype) :
    upsertArtifact arts a = arts ++ [a] := by
  rw [upsertArtifact, if_neg]
  simp only [List.any_eq_true, decide_eq_true_eq, not_exists, not_and]
  exact h

/-- Characterization of the loop's final state: over distinct types none of
which is present yet, the loop appends one `artifactFor` artifact per type and
one `noteFor` note per failed type, in order. -/
theorem runLoop_final (cfg : RunConfig) (corpus : Corpus) :
    ∀ (ts : List ArtifactType) (i : Nat) (job : Job), ts.Nodup →
    (∀ t ∈ ts, ∀ a ∈ job.artifacts, a.atype ≠ t) →
    ((runLoop cfg corpus ts i job).1).artifacts =
      job.artifacts ++ ts.map (artifactFor cfg corpus) ∧
    ((runLoop cfg corpus ts i job).1).errorNotes =
      job.errorNotes ++ ts.filterMap (noteFor cfg corpus) := by
  intro ts
  induction ts with
  | nil => intro i job _ _; simp [runLoop]
  | cons t ts ih =>
    intro i job hnd hfresh
    have hstep_art : ((runArtifact cfg corpus i t job).1).artifacts =
        job.artifacts ++ [artifactFor cfg corpus t] := by
      rw [runArtifact_artifacts, upsert_fresh]
      intro b hb
      rw [artifactFor_atype]
      exact hfresh t (by simp) b hb
    have hfresh' : ∀ t' ∈ ts,
        ∀ a ∈ ((runArtifact cfg corpus i t job).1).artifacts, a.atype ≠ t' := by
      intro t' ht' a ha
      rw [hstep_art] at ha
      rcases List.mem_append.1 ha with h | h
      · exact hfresh t' (List.mem_cons_of_mem _ ht') a h
      · simp only [List.mem_singleton] at h
        subst h
        rw [artifactFor_atype]
        intro hEq
        subst hEq
        exact (List.nodup_cons.1 hnd).1 ht'
    obtain ⟨ha, he⟩ := ih (i + 1) ((runArtifact cfg corpus i t job).1)
      (List.nodup_cons.1 hnd).2 hfresh'
    have hloop : (runLoop cfg corpus (t :: ts) i job).1 =
        (runLoop cfg corpus ts (i + 1) ((runArtifact cfg corpus i t job).1)).1 := rfl
    constructor
    · rw [hloop, ha, hstep_art, List.map_cons, List.append_assoc]
      rfl
    · rw [hloop, he, runArtifact_errorNotes, List.append_assoc]
      cases hn : noteFor cfg corpus t <;>
        simp [List.filterMap_cons, hn]

/-- Characterization of every intermediate state written by the loop: each is
the starting state plus the artifacts and notes of a nonempty prefix of the
remaining types. -/
theorem runLoopStates_mem (cfg : RunConfig) (corpus : Corpus) :
    ∀ (ts : List ArtifactType) (i : Nat) (job : Job) (s : Job), ts.Nodup →
    (∀ t ∈ ts, ∀ a ∈ job.artifacts, a.atype ≠ t) →
    s ∈ runLoopStates cfg corpus ts i job →
    ∃ p suf, ts = p ++ suf ∧
      s.artifacts = job.artifacts ++ p.map (artifactFor cfg corpus) ∧
      s.errorNotes = job.errorNotes ++ p.filterMap (noteFor cfg corpus) := by
  intro ts
  induction ts with
  | nil => intro i job s _ _ hs; simp [runLoopStates] at hs
  | cons t ts ih =>
    intro i job s hnd hfresh hs
    have hstep_art : ((runArtifact cfg corpus i t job).1).artifacts =
        job.artifacts ++ [artifactFor cfg corpus t] := by
      rw [runArtifact_artifacts, upsert_fresh]
      intro b hb
      rw [artifactFor_atype]
      exact hfresh t (by simp) b hb
    have hfresh' : ∀ t' ∈ ts,
        ∀ a ∈ ((runArtifact cfg corpus i t job).1).artifacts, a.atype ≠ t' := by
      intro t' ht' a ha
      rw [hstep_art] at ha
      rcases List.mem_append.1 ha with h | h
      · exact hfresh t' (List.mem_cons_of_mem _ ht') a h
      · simp only [List.mem_singleton] at h
        subst h
        rw [artifactFor_atype]
        intro hEq
        subst hEq
        exact (List.nodup_cons.1 hnd).1 ht'
    have hstep_err : ((runArtifact cfg corpus i t job).1).errorNotes =
        job.errorNotes ++ List.filterMap (noteFor cfg corpus) [t] := by
      rw [runArtifact_errorNotes]
      cases hn : noteFor cfg corpus t <;> simp [List.filterMap_cons, hn]
    have hmem : s = (runArtifact cfg corpus i t job).1 ∨
        s ∈ runLoopStates cfg corpus ts (i + 1) ((runArtifact cfg corpus i t job).1) := by
      simpa [runLoopStates] using hs
    rcases hmem with rfl | hrec
    · exact ⟨[t], ts, rfl, by simpa using hstep_art, by simpa using hstep_err⟩
    · obtain ⟨p, suf, hsplit, hart, herr⟩ :=
        ih (i + 1) ((runArtifact cfg corpus i t job).1) s
          (List.nodup_cons.1 hnd).2 hfresh' hrec
      refine ⟨t :: p, suf, by rw [hsplit, List.cons_append], ?_, ?_⟩
      · rw [hart, hstep_art, List.map_cons, List.append_assoc]
        rfl
      · rw [herr, hstep_err, List.append_assoc]
        cases hn : noteFor cfg corpus t <;>
          simp [List.filterMap_cons, hn]

/-- The loop's total network-call count is the sum of each type's resolve
attempt counts. -/
theorem runLoop_calls (cfg : RunConfig) (corpus : Corpus) :
    ∀ (ts : List ArtifactType) (i : Nat) (job : Job),
    (runLoop cfg corpus ts i job).2 =
      (ts.map (fun t => ((resolveType cfg corpus t).1.attemptsPerAdapter).sum)).sum := by
  intro ts
  induction ts with
  | nil => intro i job; simp [runLoop]
  | cons t ts ih =>
    intro i job
    have h2 : (runLoop cfg corpus (t :: ts) i job).2 =
        (runArtifact cfg corpus i t job).2 +
        (runLoop cfg corpus ts (i + 1) ((runArtifact cfg corpus i t job).1)).2 := rfl
    rw [h2, ih]
    rfl

/-- C1: over every job lifetime the persisted progress value stays between 0
and 100 (it is a `Nat`, hence never negative), never decreases from one
persisted state to the next, and equals 100 exactly in the states whose
status is `completed`. -/
theorem progress_invariant (cfg : RunConfig) (cr : Except String Corpus) :
    (∀ s ∈ jobTrace cfg cr,
       s.progress ≤ 100 ∧ (s.progress = 100 ↔ s.status = Status.completed)) ∧
    List.Chain' (fun x y => x ≤ y) ((jobTrace cfg cr).map (fun s => s.progress)) := by
  cases cr with
  | error m =>
    constructor
    · intro s hs
      simp only [jobTrace, List.mem_cons, List.not_mem_nil, or_false] at hs
      rcases hs with rfl | rfl | rfl <;> simp [initialJob, claimedJob]
    · have h : (jobTrace cfg (Except.error m)).map (fun s => s.progress) =
          [0, 0, 0] := rfl
      rw [h]
      norm_num [List.chain'_cons]
  | ok corpus =>
    constructor
    · intro s hs
      have hps : ((jobTrace cfg (Except.ok corpus)).map
            (fun s => (s.progress, s.status))) =
          [(0, Status.pending), (0, Status.processing), (20, Status.processing),
           (40, Status.processing), (60, Status.processing),
           (80, Status.processing), (100, Status.completed)] := rfl
      have hp := List.mem_map_of_mem (fun s => (s.progress, s.status)) hs
      rw [hps] at hp
      simp only [List.mem_cons, List.not_mem_nil, or_false] at hp
      rcases hp with h | h | h | h | h | h | h <;>
        · rw [Prod.mk.injEq] at h
          obtain ⟨h1, h2⟩ := h
          rw [h1, h2]
          exact ⟨by decide, by decide⟩
    · have h : (jobTrace cfg (Except.ok corpus)).map (fun s => s.progress) =
          [0, 0, 20, 40, 60, 80, 100] := rfl
      rw [h]
      norm_num [List.chain'_cons]

/-- C1 witness: the bound and the completion criterion evaluated on the first
state of a concrete run. -/
theorem progress_invariant_witness :
    initialJob.progress ≤ 100 ∧
    (initialJob.progress = 100 ↔ initialJob.status = Status.completed) :=
  (progress_invariant cfgOff (Except.ok corpus0)).1 initialJob
    (List.mem_cons_self _ _)

/-- C4: every persisted state keeps at most one artifact per type (the list of
artifact types is duplicate-free); a job that reaches `completed` has exactly
one artifact per configured type, in the configured order; and `upsert` on an
already-present type replaces in place — type-uniqueness is preserved and the
row count does not grow. -/
theorem artifact_uniqueness (cfg : RunConfig) (cr : Except String Corpus) :
    (∀ s ∈ jobTrace cfg cr, ((s.artifacts.map (fun a => a.atype)).Nodup)) ∧
    ((processJob cfg cr).1.status = Status.completed →
      (processJob cfg cr).1.artifacts.map (fun a => a.atype) = artifactTypes) ∧
    (∀ (arts : List Artifact) (a : Artifact),
      ((arts.map (fun b => b.atype)).Nodup) →
      (((upsertArtifact arts a).map (fun b => b.atype)).Nodup ∧
       ((∃ b ∈ arts, b.atype = a.atype) →
         (upsertArtifact arts a).length = arts.length))) := by
  refine ⟨?_, ?_, ?_⟩
  · cases cr with
    | error m =>
      intro s hs
      simp only [jobTrace, List.mem_cons, List.not_mem_nil, or_false] at hs
      rcases hs with rfl | rfl | rfl <;> simp [initialJob, claimedJob]
    | ok corpus =>
      intro s hs
      simp only [jobTrace, List.mem_cons] at hs
      rcases hs with rfl | rfl | hs
      · simp [initialJob]
      · simp [claimedJob]
      · obtain ⟨p, suf, hsplit, hart, _⟩ :=
          runLoopStates_mem cfg corpus artifactTypes 0 claimedJob s
            (by decide) (by simp [claimedJob]) hs
        rw [hart]
        have hmap : ((claimedJob.artifacts ++
            p.map (artifactFor cfg corpus)).map (fun a => a.atype)) = p := by
          simp only [claimedJob, List.nil_append, List.map_map]
          exact (List.map_congr_left
            (fun t _ => artifactFor_atype cfg corpus t)).trans (List.map_id p)
        rw [hmap]
        have hnodup : artifactTypes.Nodup := by decide
        rw [hsplit] at hnodup
        exact hnodup.of_append_left
  · cases cr with
    | error m =>
      intro h
      simp [processJob] at h
    | ok corpus =>
      intro _
      obtain ⟨hart, _⟩ := runLoop_final cfg corpus artifactTypes 0 claimedJob
        (by decide) (by simp [claimedJob])
      have hpj : (processJob cfg (Except.ok corpus)).1 =
          (runLoop cfg corpus artifactTypes 0 claimedJob).1 := rfl
      rw [hpj, hart]
      simp only [claimedJob, List.nil_append, List.map_map]
      exact (List.map_congr_left
        (fun t _ => artifactFor_atype cfg corpus t)).trans (List.map_id _)
  · intro arts a hnd
    by_cases hc : arts.any (fun b => decide (b.atype = a.atype)) = true
    · constructor
      · rw [upsertArtifact, if_pos hc]
        have hmap : ((arts.map (fun b => if b.atype = a.atype then a else b)).map
            (fun b => b.atype)) = arts.map (fun b => b.atype) := by
          rw [List.map_map]
          refine List.map_congr_left ?_
          intro b _
          by_cases hb : b.atype = a.atype
          · simp [hb]
          · simp [hb]
        rw [hmap]
        exact hnd
      · intro _
        rw [upsertArtifact, if_pos hc, List.length_map]
    · constructor
      · rw [upsertArtifact, if_neg hc]
        simp only [List.any_eq_true, decide_eq_true_eq, not_exists, not_and] at hc
        rw [List.map_append, List.nodup_append]
        refine ⟨hnd, by simp, ?_⟩
        intro x hx hx2
        simp only [List.map_cons, List.map_nil, List.mem_singleton] at hx2
        subst hx2
        obtain ⟨b, hb, hbeq⟩ := List.mem_map.1 hx
        exact hc b hb hbeq
      · intro hex
        obtain ⟨b, hb, hbeq⟩ := hex
        simp only [List.any_eq_true, decide_eq_true_eq, not_exists, not_and] at hc
        exact absurd hbeq (hc b hb)

/-- C4 witness: the completed offline run carries exactly one artifact per
configured type, in order. -/
theorem artifact_uniqueness_witness :
    (processJob cfgOff (Except.ok corpus0)).1.artifacts.map (fun a => a.atype) =
      artifactTypes :=
  (artifact_uniqueness cfgOff (Except.ok corpus0)).2.1 rfl

/-- C2: when the corpus loads, an `AllProvidersExhausted` failure on one
artifact type still ends the run in `completed`; the placeholder artifact for
that type is recorded, the accumulated error field holds exactly the notes of
every failed type in order (appended, never overwritten), and this type's
note is among them. -/
theorem partial_failure_absorbed (cfg : RunConfig) (corpus : Corpus)
    (t : ArtifactType) (e : ResolveErr)
    (ht : t ∈ artifactTypes)
    (he : (resolveType cfg corpus t).2 = Except.error e) :
    (processJob cfg (Except.ok corpus)).1.status = Status.completed ∧
    placeholderArtifact t e ∈ (processJob cfg (Except.ok corpus)).1.artifacts ∧
    (processJob cfg (Except.ok corpus)).1.errorNotes =
      artifactTypes.filterMap (noteFor cfg corpus) ∧
    failureNote t e ∈ (processJob cfg (Except.ok corpus)).1.errorNotes := by
  obtain ⟨hart, herr⟩ := runLoop_final cfg corpus artifactTypes 0 claimedJob
    (by decide) (by simp [claimedJob])
  have hpj : (processJob cfg (Except.ok corpus)).1 =
      (runLoop cfg corpus artifactTypes 0 claimedJob).1 := rfl
  refine ⟨rfl, ?_, ?_, ?_⟩
  · rw [hpj, hart]
    have haf : artifactFor cfg corpus t = placeholderArtifact t e := by
      simp [artifactFor, he]
    refine List.mem_append_right _ ?_
    rw [← haf]
    exact List.mem_map_of_mem _ ht
  · rw [hpj, herr]
    simp [claimedJob]
  · rw [hpj, herr]
    have hn : noteFor cfg corpus t = some (failureNote t e) := by
      simp [noteFor, he]
    refine List.mem_append_right _ ?_
    exact List.mem_filterMap.2 ⟨t, ht, hn⟩

/-- C2 witness: the always-`Unauthorized` chain on the readme type. -/
theorem partial_failure_absorbed_witness :
    (processJob cfgFail (Except.ok corpus0)).1.status = Status.completed ∧
    placeholderArtifact ArtifactType.readme
        (ResolveErr.allProvidersExhausted (some ProviderFailure.unauthorized)) ∈
      (processJob cfgFail (Except.ok corpus0)).1.artifacts ∧
    (processJob cfgFail (Except.ok corpus0)).1.errorNotes =
      artifactTypes.filterMap (noteFor cfgFail corpus0) ∧
    failureNote ArtifactType.readme
        (ResolveErr.allProvidersExhausted (some ProviderFailure.unauthorized)) ∈
      (processJob cfgFail (Except.ok corpus0)).1.errorNotes :=
  partial_failure_absorbed cfgFail corpus0 ArtifactType.readme
    (ResolveErr.allProvidersExhausted (some ProviderFailure.unauthorized))
    (by decide) rfl

/-- C3: with offline mode enabled, `resolve` always returns the static
adapter's output without attempting any adapter (so it cannot fail), the run
makes zero network adapter calls, and the job completes at progress 100 with
the full non-placeholder artifact set and an empty error field. -/
theorem offline_run (cfg : RunConfig) (corpus : Corpus)
    (h : cfg.offline = true) :
    (∀ (t : ArtifactType) (prompt : String),
      resolveChain cfg t prompt =
        (ChainTrace.mk [] [], Except.ok (offlineContent t))) ∧
    (processJob cfg (Except.ok corpus)).2 = 0 ∧
    (processJob cfg (Except.ok corpus)).1.status = Status.completed ∧
    (processJob cfg (Except.ok corpus)).1.progress = 100 ∧
    (processJob cfg (Except.ok corpus)).1.artifacts =
      artifactTypes.map (fun t => Artifact.mk t (offlineContent t) false 0) ∧
    (∀ a ∈ (processJob cfg (Except.ok corpus)).1.artifacts,
      a.placeholder = false) ∧
    (processJob cfg (Except.ok corpus)).1.errorNotes = [] := by
  have hres : ∀ (t : ArtifactType) (prompt : String),
      resolveChain cfg t prompt =
        (ChainTrace.mk [] [], Except.ok (offlineContent t)) := by
    intro t prompt
    simp [resolveChain, h]
  have hty : ∀ t : ArtifactType, resolveType cfg corpus t =
      (ChainTrace.mk [] [], Except.ok (offlineContent t)) := by
    intro t
    rw [resolveType, hres]
  have haf : ∀ t : ArtifactType,
      artifactFor cfg corpus t = Artifact.mk t (offlineContent t) false 0 := by
    intro t
    simp [artifactFor, hty t]
  have hnote : ∀ t : ArtifactType, noteFor cfg corpus t = none := by
    intro t
    simp [noteFor, hty t]
  obtain ⟨hart, herr⟩ := runLoop_final cfg corpus artifactTypes 0 claimedJob
    (by decide) (by simp [claimedJob])
  have hpj : (processJob cfg (Except.ok corpus)).1 =
      (runLoop cfg corpus artifactTypes 0 claimedJob).1 := rfl
  have hartifacts : (processJob cfg (Except.ok corpus)).1.artifacts =
      artifactTypes.map (fun t => Artifact.mk t (offlineContent t) false 0) := by
    rw [hpj, hart]
    simp only [claimedJob, List.nil_append]
    exact List.map_congr_left (fun t _ => haf t)
  refine ⟨hres, ?_, rfl, rfl, hartifacts, ?_, ?_⟩
  · have hcalls : (processJob cfg (Except.ok corpus)).2 =
        ((artifactTypes.map
          (fun t => ((resolveType cfg corpus t).1.attemptsPerAdapter).sum)).sum) := by
      exact runLoop_calls cfg corpus artifactTypes 0 claimedJob
    rw [hcalls]
    have : ∀ t ∈ artifactTypes,
        ((resolveType cfg corpus t).1.attemptsPerAdapter).sum = 0 := by
      intro t _
      rw [hty t]
      rfl
    rw [List.map_congr_left this]
    simp
  · intro a ha
    rw [hartifacts] at ha
    obtain ⟨t, _, rfl⟩ := List.mem_map.1 ha
    rfl
  · rw [hpj, herr]
    have : ∀ t ∈ artifactTypes, noteFor cfg corpus t = none := fun t _ => hnote t
    rw [List.filterMap_eq_nil_iff.2 this]
    simp [claimedJob]

/-- C3 witness: the offline configuration with no credentials configured. -/
theorem offline_run_witness :
    (processJob cfgOff (Except.ok corpus0)).2 = 0 ∧
    (processJob cfgOff (Except.ok corpus0)).1.status = Status.completed ∧
    (processJob cfgOff (Except.ok corpus0)).1.errorNotes = [] :=
  ⟨(offline_run cfgOff corpus0 rfl).2.1,
   (offline_run cfgOff corpus0 rfl).2.2.1,
   (offline_run cfgOff corpus0 rfl).2.2.2.2.2.2⟩

/-- An adapter that answers `RateLimited` on every attempt is attempted
exactly 3 times under attempt ceiling 3, with the capped exponential backoff
waits in between, and then reports `RateLimited`. -/
theorem alwaysRL_attempts (gen : Nat → GenOutcome) (base cap : Nat)
    (hg : ∀ k, gen k = GenOutcome.failure ProviderFailure.rateLimited) :
    adapterAttempts gen base cap 3 0 =
      (3, [backoffDelay base cap 0, backoffDelay base cap 1],
       Except.error ProviderFailure.rateLimited) := by
  simp [adapterAttempts, hg]

/-- C5: a chain whose first adapter is always `RateLimited`, under retry
ceiling 3, attempts that adapter exactly 3 times, waits the capped
exponential backoff `min cap base` and then `min cap (base * 2)` between the
attempts, then advances to the rest of the chain unchanged; when that adapter
is the only one, `resolve` fails with `AllProvidersExhausted` carrying the
`RateLimited` diagnosis. -/
theorem ratelimited_retry (cfg : RunConfig) (g : Adapter) (gs : List Adapter)
    (t : ArtifactType) (prompt : String)
    (hoff : cfg.offline = false) (hceil : cfg.retryCeiling = 3)
    (hads : cfg.adapters = g :: gs)
    (hg : ∀ (p : String) (k : Nat),
      g p k = GenOutcome.failure ProviderFailure.rateLimited) :
    (resolveChain cfg t prompt).1.attemptsPerAdapter =
      3 :: (resolveAdapters cfg.backoffBase cfg.backoffCap 3
        (gs.map (fun a => a prompt))
        (some ProviderFailure.rateLimited)).1.attemptsPerAdapter ∧
    (resolveChain cfg t prompt).1.waits.take 2 =
      [min cfg.backoffCap cfg.backoffBase,
       min cfg.backoffCap (cfg.backoffBase * 2)] ∧
    (resolveChain cfg t prompt).2 =
      (resolveAdapters cfg.backoffBase cfg.backoffCap 3
        (gs.map (fun a => a prompt)) (some ProviderFailure.rateLimited)).2 ∧
    (gs = [] → (resolveChain cfg t prompt).2 =
      Except.error (ResolveErr.allProvidersExhausted
        (some ProviderFailure.rateLimited))) := by
  have hAtt := alwaysRL_attempts (g prompt) cfg.backoffBase cfg.backoffCap
    (fun k => hg prompt k)
  have hchain : resolveChain cfg t prompt =
      resolveAdapters cfg.backoffBase cfg.backoffCap 3
        ((g :: gs).map (fun a => a prompt)) none := by
    rw [resolveChain, if_neg (by rw [hoff]; simp), hceil, hads]
  have hstep : resolveAdapters cfg.backoffBase cfg.backoffCap 3
      ((g :: gs).map (fun a => a prompt)) none =
      (ChainTrace.mk
        (3 :: (resolveAdapters cfg.backoffBase cfg.backoffCap 3
          (gs.map (fun a => a prompt))
          (some ProviderFailure.rateLimited)).1.attemptsPerAdapter)
        ([backoffDelay cfg.backoffBase cfg.backoffCap 0,
          backoffDelay cfg.backoffBase cfg.backoffCap 1] ++
         (resolveAdapters cfg.backoffBase cfg.backoffCap 3
           (gs.map (fun a => a prompt))
           (some ProviderFailure.rateLimited)).1.waits),
       (resolveAdapters cfg.backoffBase cfg.backoffCap 3
         (gs.map (fun a => a prompt))
         (some ProviderFailure.rateLimited)).2) := by
    rw [List.map_cons]
    simp only [resolveAdapters, hAtt]
  rw [hchain, hstep]
  refine ⟨rfl, ?_, rfl, ?_⟩
  · simp [backoffDelay, pow_succ]
  · intro hgs
    subst hgs
    simp [resolveAdapters]

/-- C5 witness: the single always-`RateLimited` adapter with ceiling 3. -/
theorem ratelimited_retry_witness :
    (resolveChain cfgRL ArtifactType.readme "p").1.attemptsPerAdapter =
      3 :: (resolveAdapters cfgRL.backoffBase cfgRL.backoffCap 3
        (([] : List Adapter).map (fun a => a "p"))
        (some ProviderFailure.rateLimited)).1.attemptsPerAdapter ∧
    (resolveChain cfgRL ArtifactType.readme "p").1.waits.take 2 =
      [min cfgRL.backoffCap cfgRL.backoffBase,
       min cfgRL.backoffCap (cfgRL.backoffBase * 2)] ∧
    (resolveChain cfgRL ArtifactType.readme "p").2 =
      (resolveAdapters cfgRL.backoffBase cfgRL.backoffCap 3
        (([] : List Adapter).map (fun a => a "p"))
        (some ProviderFailure.rateLimited)).2 ∧
    (([] : List Adapter) = [] → (resolveChain cfgRL ArtifactType.readme "p").2 =
      Except.error (ResolveErr.allProvidersExhausted
        (some ProviderFailure.rateLimited))) :=
  ratelimited_retry cfgRL
    (fun _ _ => GenOutcome.failure ProviderFailure.rateLimited) []
    ArtifactType.readme "p" rfl rfl rfl (fun _ _ => rfl)

/-- C6: a successful `regenerate(job, t)` replaces exactly the type-`t`
artifact's content and timestamp — when the existing artifact of that type is
a prior success, every row of the new artifact list is the old row except
that the type-`t` row gets the new content and timestamp — and the job's
status, progress, and error field are untouched. -/
theorem regenerate_frame (cfg : RunConfig) (corpus : Corpus) (job : Job)
    (t : ArtifactType) (c : String) (now : Nat)
    (hok : (resolveType cfg corpus t).2 = Except.ok c)
    (hex : ∃ a ∈ job.artifacts, a.atype = t)
    (hsucc : ∀ a ∈ job.artifacts, a.atype = t → a.placeholder = false) :
    (regenerate cfg (Except.ok corpus) job t now).status = job.status ∧
    (regenerate cfg (Except.ok corpus) job t now).progress = job.progress ∧
    (regenerate cfg (Except.ok corpus) job t now).errorNotes = job.errorNotes ∧
    (regenerate cfg (Except.ok corpus) job t now).artifacts =
      job.artifacts.map (fun a =>
        if a.atype = t then Artifact.mk a.atype c a.placeholder now else a) := by
  have hreg : regenerate cfg (Except.ok corpus) job t now =
      { job with artifacts :=
          upsertArtifact job.artifacts (Artifact.mk t c false now) } := by
    simp [regenerate, hok]
  rw [hreg]
  refine ⟨rfl, rfl, rfl, ?_⟩
  have hany : job.artifacts.any
      (fun b => decide (b.atype = (Artifact.mk t c false now).atype)) = true := by
    obtain ⟨a, ha, haty⟩ := hex
    exact List.any_eq_true.2 ⟨a, ha, by simp [haty]⟩
  show upsertArtifact job.artifacts (Artifact.mk t c false now) = _
  rw [upsertArtifact, if_pos hany]
  refine List.map_congr_left ?_
  intro a ha
  by_cases haty : a.atype = t
  · have hpl : a.placeholder = false := hsucc a ha haty
    simp [haty, hpl]
  · simp [haty]

/-- C6 witness: regenerating the readme of a job that already holds a
successful readme, with the offline chain. -/
theorem regenerate_frame_witness :
    (regenerate cfgOff (Except.ok corpus0) jobReadme ArtifactType.readme 7).status =
      jobReadme.status ∧
    (regenerate cfgOff (Except.ok corpus0) jobReadme ArtifactType.readme 7).progress =
      jobReadme.progress ∧
    (regenerate cfgOff (Except.ok corpus0) jobReadme ArtifactType.readme 7).errorNotes =
      jobReadme.errorNotes ∧
    (regenerate cfgOff (Except.ok corpus0) jobReadme ArtifactType.readme 7).artifacts =
      jobReadme.artifacts.map (fun a =>
        if a.atype = ArtifactType.readme then
          Artifact.mk a.atype (offlineContent ArtifactType.readme) a.placeholder 7
        else a) :=
  regenerate_frame cfgOff corpus0 jobReadme ArtifactType.readme
    (offlineContent ArtifactType.readme) 7 rfl
    ⟨Artifact.mk ArtifactType.readme "old" false 0, by decide, rfl⟩
    (by decide)

/-- C7 counterexample: when every provider call fails, the job still reaches
`completed` while its accumulated error message field is non-empty — so a
non-empty error field does not imply status `failed`. -/
theorem error_field_counterexample :
    (processJob cfgFail (Except.ok corpus0)).1.status = Status.completed ∧
    (processJob cfgFail (Except.ok corpus0)).1.errorNotes ≠ [] :=
  ⟨rfl, by decide⟩

/-- C7 amended: a non-empty error message field implies the job either has
status `failed` or holds at least one placeholder artifact from a partial
provider failure (the completed-with-placeholders case the failure policy
creates). -/
theorem error_field_amended (cfg : RunConfig) (cr : Except String Corpus) :
    ∀ s ∈ jobTrace cfg cr, s.errorNotes ≠ [] →
      s.status = Status.failed ∨ ∃ a ∈ s.artifacts, a.placeholder = true := by
  intro s hs hne
  cases cr with
  | error m =>
    simp only [jobTrace, List.mem_cons, List.not_mem_nil, or_false] at hs
    rcases hs with rfl | rfl | rfl
    · exact absurd rfl hne
    · exact absurd rfl hne
    · exact Or.inl rfl
  | ok corpus =>
    simp only [jobTrace, List.mem_cons] at hs
    rcases hs with rfl | rfl | hs
    · exact absurd rfl hne
    · exact absurd rfl hne
    · obtain ⟨p, suf, hsplit, hart, herr⟩ :=
        runLoopStates_mem cfg corpus artifactTypes 0 claimedJob s
          (by decide) (by simp [claimedJob]) hs
      have hne2 : p.filterMap (noteFor cfg corpus) ≠ [] := by
        rw [herr] at hne
        simpa [claimedJob] using hne
      have hex : ∃ t ∈ p, ∃ n, noteFor cfg corpus t = some n := by
        by_contra hcon
        push_neg at hcon
        apply hne2
        refine List.filterMap_eq_nil_iff.2 ?_
        intro t ht2
        cases hn : noteFor cfg corpus t with
        | none => rfl
        | some n => exact absurd hn (hcon t ht2 n)
      obtain ⟨t, htp, n, hn⟩ := hex
      have he : ∃ e, (resolveType cfg corpus t).2 = Except.error e := by
        cases h2 : (resolveType cfg corpus t).2 with
        | ok c => simp [noteFor, h2] at hn
        | error e => exact ⟨e, rfl⟩
      obtain ⟨e, he2⟩ := he
      refine Or.inr ⟨placeholderArtifact t e, ?_, rfl⟩
      rw [hart]
      refine List.mem_append_right _ ?_
      have haf : artifactFor cfg corpus t = placeholderArtifact t e := by
        simp [artifactFor, he2]
      rw [← haf]
      exact List.mem_map_of_mem _ htp

/-- C7 amended witness: the corpus-failure terminal state. -/
theorem error_field_amended_witness :
    (Job.mk Status.failed 0 ["boom"] []).status = Status.failed ∨
    ∃ a ∈ (Job.mk Status.failed 0 ["boom"] []).artifacts,
      a.placeholder = true :=
  error_field_amended cfgFail (Except.error "boom")
    (Job.mk Status.failed 0 ["boom"] []) (by decide) (by decide)

/-- C8 counterexample: on the same job list, the catch-all resolver invoked
with slug `["j", ""]` serves the artifact whose path ends in `'/'`, while the
query-parameter resolver invoked with `jobId = "j"`, `filename = ""` rejects
the falsy filename and returns not-found — the two resolvers disagree on
this (jobId, filename) pair. -/
theorem resolver_equiv_counterexample :
    slugResolver jsC8 ["j", ""] = SSRResult.props "T" "C" ∧
    queryResolver jsC8 (some "j") (some "") = SSRResult.notFound := by
  decide

/-- C8 amended: for every job list and every pair of non-empty `jobId` and
`filename`, the catch-all resolver on slug `[jobId, filename]` and the
query-parameter resolver on `{jobId, filename}` return identical outcomes
(not-found in the same cases, otherwise the same title and content). -/
theorem resolver_equiv_amended (items : List FJob) (jobId filename : String)
    (h1 : jobId ≠ "") (h2 : filename ≠ "") :
    slugResolver items [jobId, filename] =
      queryResolver items (some jobId) (some filename) := by
  simp [slugResolver, queryResolver, joinSlash, h1, h2]

/-- C8 amended witness: both resolvers agree on a concrete non-empty pair. -/
theorem resolver_equiv_amended_witness :
    slugResolver jsC8 ["j", "readme.md"] =
      queryResolver jsC8 (some "j") (some "readme.md") :=
  resolver_equiv_amended jsC8 "j" "readme.md" (by decide) (by decide)

/-- The path condition under which an artifact can never match a viewer
lookup for `filename`: its path is null/undefined, or its path does not end
with `'/' + filename`. -/
def badPathFor (filename : String) (a : FArtifact) : Prop :=
  a.path = none ∨ ∃ p, a.path = some p ∧ jsEndsWith p ("/" ++ filename) = false

/-- An artifact with a bad path never satisfies the shared lookup predicate. -/
theorem badPath_noMatch (filename : String) (a : FArtifact)
    (h : badPathFor filename a) : matchesFile filename a = false := by
  rcases h with h | ⟨p, hp, hend⟩
  · simp [matchesFile, h]
  · simp [matchesFile, hp, hend]

/-- C9 counterexample: an artifact whose path is the bare requested filename
(`notes.md`, no `'/'`) is indeed skipped by the lookup predicate, but the
job-list download link for it uses the path's own last segment (`notes.md`),
not the claimed `type + ".md"` fallback (`readme.md`). -/
theorem artifact_path_counterexample :
    aBare.path = some "notes.md" ∧
    jsEndsWith "notes.md" ("/" ++ "notes.md") = false ∧
    matchesFile "notes.md" aBare = false ∧
    jobListFilename aBare ≠ aBare.atype ++ ".md" := by
  decide

/-- C9 amended: when every artifact of the looked-up job has a bad path for
the requested filename, all three viewers report not-found (the client page
shows 'Artifact not found') even though the artifacts are present; the
job-list download link falls back to `type + ".md"` exactly when the path is
null/undefined, and uses the path's last segment when the path is a non-empty
string such as a bare filename. -/
theorem artifact_path_amended (items : List FJob) (jobId filename : String)
    (job : FJob)
    (h1 : jobId ≠ "") (h2 : filename ≠ "")
    (hfind : items.find? (fun j => decide (j.id = jobId)) = some job)
    (hbad : ∀ b ∈ job.artifacts, badPathFor filename b) :
    slugResolver items [jobId, filename] = SSRResult.notFound ∧
    queryResolver items (some jobId) (some filename) = SSRResult.notFound ∧
    clientResolve items jobId filename =
      some (filename, "# Not found\nArtifact not found") ∧
    (∀ a ∈ job.artifacts, a.path = none →
      jobListFilename a = a.atype ++ ".md") ∧
    (∀ a ∈ job.artifacts, ∀ p, a.path = some p → p ≠ "" →
      jobListFilename a = jsLastSegment p) := by
  have hnone : job.artifacts.find? (matchesFile filename) = none :=
    List.find?_eq_none.2 (fun b hb => by
      simp [badPath_noMatch filename b (hbad b hb)])
  refine ⟨?_, ?_, ?_, ?_, ?_⟩
  · simp [slugResolver, joinSlash, hfind, hnone]
  · simp [queryResolver, h1, h2, hfind, hnone]
  · simp [clientResolve, h1, h2, hfind, hnone]
  · intro a _ hpn
    simp [jobListFilename, hpn]
  · intro a _ p hp hpne
    simp [jobListFilename, hp, hpne]

/-- C9 amended witness: the bare-filename artifact on a concrete job list. -/
theorem artifact_path_amended_witness :
    slugResolver jsBare ["j", "notes.md"] = SSRResult.notFound ∧
    queryResolver jsBare (some "j") (some "notes.md") = SSRResult.notFound ∧
    clientResolve jsBare "j" "notes.md" =
      some ("notes.md", "# Not found\nArtifact not found") ∧
    (∀ a ∈ (FJob.mk "j" [aBare]).artifacts, a.path = none →
      jobListFilename a = a.atype ++ ".md") ∧
    (∀ a ∈ (FJob.mk "j" [aBare]).artifacts, ∀ p, a.path = some p → p ≠ "" →
      jobListFilename a = jsLastSegment p) :=
  artifact_path_amended jsBare "j" "notes.md" (FJob.mk "j" [aBare])
    (by decide) (by decide) (by decide)
    (by
      intro b hb
      simp only [List.mem_singleton] at hb
      subst hb
      exact Or.inr ⟨"notes.md", rfl, by decide⟩)

/-- C10: `handleUpload` with no file selected only calls `onError` and never
issues an upload request; on a rejected upload it calls `onError` and leaves
the selected file unchanged; the selected file ends up cleared only when it
was already empty or the upload succeeded (and is cleared on success); and
the uploading flag is false after every path. -/
theorem upload_panel_flow (file : Option String)
    (outcome : Except String String) :
    (file = none →
      handleUpload file outcome =
        [PanelEff.effError "Pick a file first. Zip works best for full repos."] ∧
      ∀ f, PanelEff.effRequest f ∉ handleUpload file outcome) ∧
    (∀ e, outcome = Except.error e → file ≠ none →
      PanelEff.effError "Upload failed. Is the backend running?" ∈
        handleUpload file outcome ∧
      (runPanel (PanelState.mk file false) (handleUpload file outcome)).file =
        file) ∧
    ((runPanel (PanelState.mk file false) (handleUpload file outcome)).file =
        none →
      file = none ∨ ∃ j, outcome = Except.ok j) ∧
    (runPanel (PanelState.mk file false)
      (handleUpload file outcome)).uploading = false ∧
    (∀ j, outcome = Except.ok j → file ≠ none →
      (runPanel (PanelState.mk file false) (handleUpload file outcome)).file =
        none) := by
  cases file <;> cases outcome <;>
    simp [handleUpload, runPanel, applyEff]

/-- C10 witness: a rejected upload with a selected file calls `onError` and
keeps the file selected. -/
theorem upload_panel_flow_witness :
    PanelEff.effError "Upload failed. Is the backend running?" ∈
      handleUpload (some "repo.zip") (Except.error "boom") ∧
    (runPanel (PanelState.mk (some "repo.zip") false)
      (handleUpload (some "repo.zip") (Except.error "boom"))).file =
      some "repo.zip" :=
  (upload_panel_flow (some "repo.zip") (Except.error "boom")).2.1 "boom" rfl
    (by simp)

end AutoDocs
